import Mathlib

/-!
A shallow embedding of the `resting` script-execution engine
(`script.py`, `history.py`, `tests.py`, `utils.py`, `errors.py`)
together with proofs about its behaviour.

Python values flowing through the converter are JSON-like trees; they are
modelled by the mutual inductive `JsonValue` / `JsonList` / `JsonObj`
(dictionaries are insertion-ordered association lists with unique keys,
exactly the observable behaviour of a Python `dict` whose keys are strings,
which is what the script wire format produces).

Machine-level caveats, stated once:
- Python `int` is unbounded, modelled by `Int`.
- `float` appears only in `Sleep.run`; it is modelled at integer precision
  because no observable property here depends on fractional values.
- Laziness (`map(convert, value)` returns a lazy iterator in the source) is
  modelled by the strict sequence of its elements, i.e. the denotation the
  iterator produces when it is consumed.
-/

mutual

inductive JsonValue where
  | null : JsonValue
  | bool (b : Bool) : JsonValue
  | num (n : Int) : JsonValue
  | str (s : String) : JsonValue
  | arr (items : JsonList) : JsonValue
  | obj (fields : JsonObj) : JsonValue
deriving DecidableEq

inductive JsonList where
  | nil : JsonList
  | cons (head : JsonValue) (tail : JsonList) : JsonList
deriving DecidableEq

inductive JsonObj where
  | nil : JsonObj
  | cons (key : String) (value : JsonValue) (tail : JsonObj) : JsonObj
deriving DecidableEq

end

def JsonList.toList : JsonList → List JsonValue
  | .nil => []
  | .cons v rest => v :: rest.toList

def JsonObj.toList : JsonObj → List (String × JsonValue)
  | .nil => []
  | .cons k v rest => (k, v) :: rest.toList

def JsonList.length (xs : JsonList) : Nat := xs.toList.length

/-- Python `dict` read: first (unique) matching key. -/
def dictGet : JsonObj → String → Option JsonValue
  | .nil, _ => none
  | .cons k v rest, key => if k = key then some v else dictGet rest key

/-- Python `dict` write `d[key] = v`: an existing key keeps its position and
gets the new value; a new key is appended. -/
def dictSet : JsonObj → String → JsonValue → JsonObj
  | .nil, key, v => .cons key v .nil
  | .cons k v0 rest, key, v =>
    if k = key then .cons k v rest else .cons k v0 (dictSet rest key v)

def JsonObj.append : JsonObj → JsonObj → JsonObj
  | .nil, ys => ys
  | .cons k v rest, ys => .cons k v (rest.append ys)

/-- Build a dict from a pair sequence in order (a Python dict comprehension). -/
def dictBuild : JsonObj → JsonObj → JsonObj
  | acc, .nil => acc
  | acc, .cons k v rest => dictBuild (dictSet acc k v) rest

def digitsOpt (cs : List Char) : Option Nat :=
  if cs ≠ [] ∧ cs.all Char.isDigit then
    some (cs.foldl (fun acc c => acc * 10 + (c.toNat - 48)) 0)
  else none

/-- Python `int(s)` on a string: optional sign followed by decimal digits.
(CPython additionally strips surrounding whitespace and allows `_` digit
separators; no behaviour proved here depends on those inputs.) -/
def pyIntOfString (s : String) : Option Int :=
  match s.data with
  | '-' :: rest => (digitsOpt rest).map (fun n => -(n : Int))
  | '+' :: rest => (digitsOpt rest).map (fun n => (n : Int))
  | cs => (digitsOpt cs).map (fun n => (n : Int))

/-- Python list subscription `xs[i]` with negative-index support. -/
def pyListGet {α : Type} (xs : List α) (i : Int) : Option α :=
  if 0 ≤ i then xs.get? i.toNat
  else if (-i).toNat ≤ xs.length then xs.get? (xs.length - (-i).toNat)
  else none

/-- Characters admitted inside a placeholder path: the regex class `[\w.-]`
of `SUBSTITUTE = re.compile(r"{(?P<path>[\w.-]+)}")` (ASCII reading of `\w`). -/
def isPathChar (c : Char) : Bool :=
  c.isAlphanum || c = '_' || c = '.' || c = '-'

/-- At a position right after `\x7b`: the maximal nonempty run of path
characters, provided it is immediately closed by `\x7d`. -/
def placeAt (cs : List Char) : Option (List Char) :=
  let run := cs.takeWhile isPathChar
  if run.isEmpty then none
  else
    match cs.drop run.length with
    | '\x7d' :: _ => some run
    | _ => none

/-- Scanner for `SUBSTITUTE.findall`: leftmost non-overlapping matches of
`\x7b[\w.-]+\x7d`, returning the captured paths in order.  The `skip`
argument consumes the remainder of a match already emitted. -/
def scanGo : List Char → Nat → List String
  | [], _ => []
  | _ :: cs, skip + 1 => scanGo cs skip
  | c :: cs, 0 =>
    if c = '\x7b' then
      match placeAt cs with
      | some run => String.mk run :: scanGo cs (run.length + 1)
      | none => scanGo cs 0
    else scanGo cs 0

def scanPl (cs : List Char) : List String := scanGo cs 0

/-- Python `str.replace`: all non-overlapping occurrences, left to right.
The `skip` argument consumes the tail of a match already replaced.
(An empty pattern, which Python treats as matching between every pair of
characters, never occurs here: every pattern starts with `\x7b`.) -/
def replaceGo (pat rep : List Char) : List Char → Nat → List Char
  | [], _ => []
  | _ :: cs, skip + 1 => replaceGo pat rep cs skip
  | c :: cs, 0 =>
    if pat ≠ [] ∧ pat.isPrefixOf (c :: cs) then
      rep ++ replaceGo pat rep cs (pat.length - 1)
    else c :: replaceGo pat rep cs 0

def pyReplace (s pat rep : String) : String :=
  String.mk (replaceGo pat.data rep.data s.data 0)

mutual

/-- Python `repr` of a JSON-like value (string escaping inside `repr` is not
modelled; no behaviour proved here depends on it). -/
def pyRepr : JsonValue → String
  | .null => "None"
  | .bool true => "True"
  | .bool false => "False"
  | .num n => toString n
  | .str s => "\x27" ++ s ++ "\x27"
  | .arr xs => "[" ++ pyReprList xs ++ "]"
  | .obj fs => "\x7b" ++ pyReprObj fs ++ "\x7d"

def pyReprList : JsonList → String
  | .nil => ""
  | .cons v .nil => pyRepr v
  | .cons v rest => pyRepr v ++ ", " ++ pyReprList rest

def pyReprObj : JsonObj → String
  | .nil => ""
  | .cons k v .nil => "\x27" ++ k ++ "\x27: " ++ pyRepr v
  | .cons k v rest => "\x27" ++ k ++ "\x27: " ++ pyRepr v ++ ", " ++ pyReprObj rest

end

/-- Python `str()` of a JSON-like value. -/
def pyStr : JsonValue → String
  | .str s => s
  | v => pyRepr v

/-- The error taxonomy observable from the engine.  Python exception classes
are flattened into one sum: `keyError` / `indexError` are `LookupError`
subclasses; `invalidPath`, `emptyEnvironment`, `testError` and `failedStep`
mirror the classes of `errors.py` / `script.py`.  `emptyEnvironment` and
`testError` are declared in the source but raised nowhere; they are kept so
that statements about them can be made. -/
inductive RErr where
  | invalidPath (path : String) (item : Option String)
  | emptyEnvironment
  | keyError (key : String)
  | indexError (msg : String)
  | typeError (msg : String)
  | valueError (msg : String)
  | assertionError (msg : String)
  | testError (tag : String) (msg : String)
  | failedStep (label : String) (number : Nat) (total : Nat) (cause : RErr)
deriving DecidableEq

/-- Does the error have the shape of `errors.py`:`TestError` (a structured
test failure carrying a variant tag)? -/
def RErr.isTestError : RErr → Bool
  | .testError _ _ => true
  | _ => false

/-- Source `exception.args[0]` of a `LookupError`, as read by
`create_converter.substitute`: the key of a `KeyError`, the message of an
`IndexError`. -/
def RErr.lookupArg : RErr → Option String
  | .keyError k => some k
  | .indexError m => some m
  | _ => none

/-- One recorded exchange outcome (`history.py`).  The body is kept as its
parsed JSON value: `History.add` buffers the raw bytes eagerly and
`response.json()` parses them on demand, both outside the state observable
here. -/
structure HistoryEntry where
  status : Int
  reason : String
  headers : List (String × String)
  cookies : List (String × String)
  body : JsonValue
deriving DecidableEq

/-- Source `History`: `_labels` in arrival order plus the ordered mapping
`_responses` from label to entry. -/
structure History where
  labels : List String
  responses : List (String × HistoryEntry)
deriving DecidableEq

def History.empty : History := ⟨[], []⟩

def lookupPairs : List (String × String) → String → Option String
  | [], _ => none
  | (k, v) :: rest, key => if k = key then some v else lookupPairs rest key

def lookupEntry : List (String × HistoryEntry) → String → Option HistoryEntry
  | [], _ => none
  | (k, v) :: rest, key => if k = key then some v else lookupEntry rest key

def lowerStr (s : String) : String := String.mk (s.data.map Char.toLower)

/-- Source `CIMultiDict[name]`: case-insensitive lookup, first match. -/
def ciGet (pairs : List (String × String)) (key : String) : Option String :=
  match pairs with
  | [] => none
  | (k, v) :: rest => if lowerStr k = lowerStr key then some v else ciGet rest key

def RESERVED_LABELS : List String := ["last"]

/-- Source `History._label`: de-duplicate a label by appending the first free
numeric suffix, counting from 2.  The search in the source increments an
unbounded counter; it is total because the label list is finite, which the
fuel `labels.length + 1` makes explicit (among the `labels.length + 1`
candidate suffixes at least one is unused). -/
def labelSearch (labels : List String) (pfx : String) : Nat → Nat → String
  | 0, counter => pfx ++ toString counter
  | fuel + 1, counter =>
    if (pfx ++ toString counter) ∈ labels then
      labelSearch labels pfx fuel (counter + 1)
    else pfx ++ toString counter

def History.label_dedup (labels : List String) (pfx : String) : String :=
  if pfx ∈ labels then labelSearch labels pfx (labels.length + 1) 2 else pfx

/-- Source `History.add`.  The numeric-label guard in the source is

    try:
        int(label)
        raise ValueError(f"label mustn't contain integer: ...")
    except ValueError:
        pass

Both the failed parse and the deliberate `raise` are `ValueError`s caught by
the same handler, so the whole block is a no-op for every label and only the
reserved-label check can reject.  Reading the response body is I/O with no
effect on the state modelled here. -/
def History.add (h : History) (label : String) (resp : HistoryEntry) :
    Except RErr History :=
  if label ∈ RESERVED_LABELS then
    .error (.valueError ("\x27" ++ label ++ "\x27 is reserved label"))
  else
    let l := History.label_dedup h.labels label
    .ok ⟨h.labels ++ [l], h.responses ++ [(l, resp)]⟩

/-- Source `History.last` (`self[-1]`): negative list indexing on `_labels` raises
`IndexError` on an empty history, then `_responses[label]`. -/
def History.lastEntry (h : History) : Except RErr HistoryEntry :=
  match pyListGet h.labels (-1) with
  | some lbl =>
    match lookupEntry h.responses lbl with
    | some e => .ok e
    | none => .error (.keyError lbl)
  | none => .error (.indexError "list index out of range")

/-- Source `utils.get_item` applied to the `History` mapping: try the key as an
integer index first (`__getitem__` then indexes `_labels`); otherwise
`__getitem__` resolves the alias `"last"` before the `_responses` lookup. -/
def History.getItem (h : History) (key : String) : Except RErr HistoryEntry :=
  match pyIntOfString key with
  | some i =>
    match pyListGet h.labels i with
    | some lbl =>
      match lookupEntry h.responses lbl with
      | some e => .ok e
      | none => .error (.keyError lbl)
    | none => .error (.indexError "list index out of range")
  | none =>
    if key = "last" then h.lastEntry
    else
      match lookupEntry h.responses key with
      | some e => .ok e
      | none => .error (.keyError key)

/-- Source `utils.get_item` on a JSON-like container: parse the segment as an
integer and subscript positionally, else fall back to string-key lookup.
`KeyError` / `IndexError` are `LookupError`s; subscripting a scalar, or a
list by a non-integer, is a `TypeError` (which `substitute` does not catch). -/
def get_item (data : JsonValue) (key : String) : Except RErr JsonValue :=
  match pyIntOfString key with
  | some i =>
    match data with
    | .arr xs =>
      match pyListGet xs.toList i with
      | some v => .ok v
      | none => .error (.indexError "list index out of range")
    | .obj _ => .error (.keyError (toString i))
    | .str s =>
      match pyListGet s.data i with
      | some c => .ok (.str (String.mk [c]))
      | none => .error (.indexError "string index out of range")
    | _ => .error (.typeError "object is not subscriptable")
  | none =>
    match data with
    | .obj fields =>
      match dictGet fields key with
      | some v => .ok v
      | none => .error (.keyError key)
    | .arr _ => .error (.typeError "list indices must be integers or slices, not str")
    | .str _ => .error (.typeError "string indices must be integers")
    | _ => .error (.typeError "object is not subscriptable")

/-- Source `utils.get_dict_value`: resolve each remaining segment in turn. -/
def get_dict_value : List String → JsonValue → Except RErr JsonValue
  | [], data => .ok data
  | key :: rest, data =>
    match get_item data key with
    | .ok next => get_dict_value rest next
    | .error e => .error e

/-- Does a History path tail match one of the recognized response-field
shapes of `History.get_value_by_path`? -/
def matchedTail : List String → Bool
  | ["headers", _] => true
  | ["cookies", _] => true
  | "json" :: _ => true
  | ["status"] => true
  | ["reason"] => true
  | _ => false

/-- Source `History.get_value_by_path`.  An empty path fails the unpacking
`key, *path = path`.  A stored entry is always truthy, so the
`if not response` guard (raising `ValueError("No response ... found")`)
is unreachable through `History.add` and is not represented.  A tail that
matches no case falls off the Python `match` statement and returns `None`,
modelled as JSON null. -/
def History.get_value_by_path (h : History) : List String → Except RErr JsonValue
  | [] => .error (.valueError "not enough values to unpack (expected at least 1, got 0)")
  | key :: path =>
    match History.getItem h key with
    | .error e => .error e
    | .ok resp =>
      match path with
      | ["headers", header] =>
        match ciGet resp.headers header with
        | some v => .ok (.str v)
        | none => .error (.keyError header)
      | ["cookies", name] =>
        match lookupPairs resp.cookies name with
        | some v => .ok (.str v)
        | none => .error (.keyError name)
      | "json" :: rest => get_dict_value rest resp.body
      | ["status"] => .ok (.num resp.status)
      | ["reason"] => .ok (.str resp.reason)
      | _ => .ok .null

deriving instance DecidableEq for Except

/-- The run-scoped mutable state threaded through one `Script.process`:
the environment dict, the session history, and the diagnostics emitted so
far (`logger.warning` in `Print.run`). -/
structure RunState where
  environment : JsonObj
  history : History
  output : List String
deriving DecidableEq

/-- Python `path.split(".")` on the placeholder path. -/
def splitDotGo : List Char → List Char → List String
  | [], acc => [String.mk acc.reverse]
  | c :: rest, acc =>
    if c = '.' then String.mk acc.reverse :: splitDotGo rest []
    else splitDotGo rest (c :: acc)

def splitDot (s : String) : List String := splitDotGo s.data []

/-- Source `create_converter.substitute`: the first segment selects a namespace.
For `environment`, `LookupError`s from `get_dict_value` are re-raised as
`InvalidPath(path, exception.args[0])`; other exceptions (for instance
`TypeError` from subscripting a scalar) propagate unchanged.  For `history`,
nothing is caught.  Any other leading segment is `InvalidPath(path)`.
The `EmptyEnvironment` class is defined in `script.py` but never raised. -/
def substitute (s : RunState) (path : String) : Except RErr JsonValue :=
  match splitDot path with
  | "environment" :: rest =>
    match get_dict_value rest (.obj s.environment) with
    | .ok v => .ok v
    | .error e =>
      match RErr.lookupArg e with
      | some item => .error (.invalidPath path (some item))
      | none => .error e
  | "history" :: rest => s.history.get_value_by_path rest
  | _ => .error (.invalidPath path none)

/-- Resolve every scanned path in order, pairing each placeholder text with
the stringified resolved value (the precomputed `substitutes` list). -/
def resolveSubs (s : RunState) : List String → Except RErr (List (String × String))
  | [] => .ok []
  | p :: rest =>
    match substitute s p with
    | .error e => .error e
    | .ok v =>
      match resolveSubs s rest with
      | .error e => .error e
      | .ok r => .ok (("\x7b" ++ p ++ "\x7d", pyStr v) :: r)

/-- Apply the precomputed replacements sequentially to the evolving string
(`value = value.replace(sub, str(rep))`).  A replacement result can itself
be hit by a later replacement, exactly as in the source. -/
def applySubs : List (String × String) → String → String
  | [], s => s
  | (pat, rep) :: rest, s => applySubs rest (pyReplace s pat rep)

/-- The string case of `create_converter.convert`: scan for all placeholder
occurrences, resolve every path before performing any replacement, then
apply all replacements. -/
def convertString (st : RunState) (s : String) : Except RErr String :=
  match resolveSubs st (scanPl s.data) with
  | .error e => .error e
  | .ok subs => .ok (applySubs subs s)

mutual

/-- Source `create_converter.convert`: structural recursion over the value tree.
Dict keys of the wire format are strings, so converting a key is the string
case.  The dict comprehension rebuilds the mapping pair by pair
(`dictBuild`); the lazy `map` over a list is modelled by the sequence of
converted items. -/
def convert (s : RunState) : JsonValue → Except RErr JsonValue
  | .null => .ok .null
  | .bool b => .ok (.bool b)
  | .num n => .ok (.num n)
  | .str t =>
    match convertString s t with
    | .ok r => .ok (.str r)
    | .error e => .error e
  | .arr xs =>
    match convertJsonList s xs with
    | .ok ys => .ok (.arr ys)
    | .error e => .error e
  | .obj fs =>
    match convertJsonObj s fs with
    | .ok ps => .ok (.obj (dictBuild .nil ps))
    | .error e => .error e

def convertJsonList (s : RunState) : JsonList → Except RErr JsonList
  | .nil => .ok .nil
  | .cons v rest =>
    match convert s v with
    | .error e => .error e
    | .ok v2 =>
      match convertJsonList s rest with
      | .error e => .error e
      | .ok r2 => .ok (.cons v2 r2)

def convertJsonObj (s : RunState) : JsonObj → Except RErr JsonObj
  | .nil => .ok .nil
  | .cons k v rest =>
    match convertString s k with
    | .error e => .error e
    | .ok k2 =>
      match convert s v with
      | .error e => .error e
      | .ok v2 =>
        match convertJsonObj s rest with
        | .error e => .error e
        | .ok r2 => .ok (.cons k2 v2 r2)

end

/-- Python `int()` applied to a converted value (`Status.run`). -/
def pyInt (v : JsonValue) : Except RErr Int :=
  match v with
  | .num n => .ok n
  | .bool b => .ok (if b then 1 else 0)
  | .str s =>
    match pyIntOfString s with
    | some n => .ok n
    | none =>
      .error (.valueError ("invalid literal for int() with base 10: \x27" ++ s ++ "\x27"))
  | _ => .error (.typeError "int() argument must be a string or a number")

/-- Python `float()` applied to a converted value (`Sleep.run`), modelled at
integer precision (see the header note). -/
def pyFloat (v : JsonValue) : Except RErr Int :=
  match v with
  | .num n => .ok n
  | .bool b => .ok (if b then 1 else 0)
  | .str s =>
    match pyIntOfString s with
    | some n => .ok n
    | none =>
      .error (.valueError ("could not convert string to float: \x27" ++ s ++ "\x27"))
  | _ => .error (.typeError "float() argument must be a string or a real number")

/-- The closed set of assertion variants (`tests.py`).  The payload types are
those pydantic admits on the wire: `sleep`/`status` take a scalar possibly
given as a templated string, `eq` a sequence, `update_environment` a
string-keyed map, `print` a string. -/
inductive Test where
  | sleep (value : JsonValue)
  | status (value : JsonValue)
  | eq (values : JsonList)
  | update_environment (pairs : JsonObj)
  | print (message : String)
deriving DecidableEq

/-- Source `BaseTest.name`: the populated tag of the variant. -/
def Test.tagName : Test → String
  | .sleep _ => "sleep"
  | .status _ => "status"
  | .eq _ => "eq"
  | .update_environment _ => "update_environment"
  | .print _ => "print"

/-- Source `Sleep.run`: convert the duration, coerce with `float()`, then suspend.
The suspension is real time only; the run state is unchanged. -/
def Sleep.run (s : RunState) (value : JsonValue) : Except RErr RunState :=
  match convert s value with
  | .error e => .error e
  | .ok c =>
    match pyFloat c with
    | .error e => .error e
    | .ok _delay => .ok s

/-- Source `Status.run`.  The guard `assert session.history.last, "no last request
found"` first evaluates `History.last`, whose `self._labels[-1]` raises
`IndexError` on an empty history before the assert can fail; a stored entry
is always truthy, so the assert message is unreachable and the guard reduces
to the `lastEntry` lookup. -/
def Status.run (s : RunState) (value : JsonValue) : Except RErr RunState :=
  match s.history.lastEntry with
  | .error e => .error e
  | .ok entry =>
    match convert s value with
    | .error e => .error e
    | .ok c =>
      match pyInt c with
      | .error e => .error e
      | .ok expected =>
        if entry.status = expected then .ok s
        else
          .error (.assertionError
            ("response status " ++ toString entry.status ++ " but "
              ++ toString expected ++ " expected"))

/-- Source `Equal.run`: the two-element unpacking, both elements converted in order,
then deep structural equality (Python `==` on JSON-like trees; the Python
quirk `True == 1` is not represented since booleans and numbers never meet
in the behaviours proved here). -/
def Equal.run (s : RunState) (values : JsonList) : Except RErr RunState :=
  match values with
  | .cons x (.cons y .nil) =>
    match convert s x with
    | .error e => .error e
    | .ok a =>
      match convert s y with
      | .error e => .error e
      | .ok b =>
        if a = b then .ok s
        else .error (.assertionError ("items are not equal:\n" ++ pyStr a ++ "\n" ++ pyStr b))
  | _ => .error (.assertionError "only two items can be compared")

/-- Source `UpdateEnvironment.run`: for each pair in iteration order, convert the
key, convert the value, assign into the shared environment; later pairs see
the assignments of earlier ones. -/
def UpdateEnvironment.run (s : RunState) : JsonObj → Except RErr RunState
  | .nil => .ok s
  | .cons k v rest =>
    match convertString s k with
    | .error e => .error e
    | .ok k2 =>
      match convert s v with
      | .error e => .error e
      | .ok v2 =>
        UpdateEnvironment.run { s with environment := dictSet s.environment k2 v2 } rest

/-- Source `Print.run`: convert the message and emit it (`logger.warning`). -/
def Print.run (s : RunState) (message : String) : Except RErr RunState :=
  match convertString s message with
  | .error e => .error e
  | .ok out => .ok { s with output := s.output ++ [out] }

def Test.run (s : RunState) : Test → Except RErr RunState
  | .sleep v => Sleep.run s v
  | .status v => Status.run s v
  | .eq vs => Equal.run s vs
  | .update_environment ps => UpdateEnvironment.run s ps
  | .print m => Print.run s m

/-- The test loop of `Step.process`: announce test `num` (the
`logger.debug` line, recorded as the trace of started tests), run it, stop
at the first error.  Returns the trace alongside the outcome. -/
def runTests (num : Nat) (ts : List Test) (s : RunState) :
    List Nat × Except RErr RunState :=
  match ts with
  | [] => ([], .ok s)
  | t :: rest =>
    match Test.run s t with
    | .error e => ([num], .error e)
    | .ok s2 =>
      let r := runTests (num + 1) rest s2
      (num :: r.1, r.2)

/-- A step of the script (`script.py`): one templated exchange followed by
its ordered assertions. -/
structure Header where
  name : String
  value : String
deriving DecidableEq

structure Step where
  label : String := "unnamed"
  method : String
  url : String
  headers : List Header := []
  json_data : Option JsonValue := none
  tests : List Test := []
deriving DecidableEq

/-- The external HTTP collaborator: performs the exchange for the converted
method, url, headers and body under the step label, and returns the history
with the outcome registered (the session owns `History.add`).  Any failure
it raises is an error like any other. -/
def ExchangeFn : Type :=
  String → String → String → List (String × String) → Option JsonValue →
    History → Except RErr History

/-- Source `Header.get`: both sides independently converted. -/
def convertHeaders (s : RunState) : List Header → Except RErr (List (String × String))
  | [] => .ok []
  | h :: rest =>
    match convertString s h.name with
    | .error e => .error e
    | .ok n =>
      match convertString s h.value with
      | .error e => .error e
      | .ok v =>
        match convertHeaders s rest with
        | .error e => .error e
        | .ok r => .ok ((n, v) :: r)

/-- Source `Step.get_json_data`: `converter(None)` is `None`. -/
def convertJsonData (s : RunState) : Option JsonValue → Except RErr (Option JsonValue)
  | none => .ok none
  | some v =>
    match convert s v with
    | .error e => .error e
    | .ok v2 => .ok (some v2)

/-- Source `Step.process`: resolve method, url, headers and body through the
converter in keyword order, perform the exchange, then run the tests in
declared order, propagating the first failure. -/
def Step.process (exch : ExchangeFn) (st : Step) (s : RunState) :
    Except RErr RunState :=
  match convertString s st.method with
  | .error e => .error e
  | .ok m =>
    match convertString s st.url with
    | .error e => .error e
    | .ok u =>
      match convertHeaders s st.headers with
      | .error e => .error e
      | .ok hs =>
        match convertJsonData s st.json_data with
        | .error e => .error e
        | .ok j =>
          match exch m u st.label hs j s.history with
          | .error e => .error e
          | .ok h2 => (runTests 1 st.tests { s with history := h2 }).2

structure Script where
  environment : JsonObj := .nil
  steps : List Step
deriving DecidableEq

/-- The step loop of `Script.process`: announce step `num` (the
`logger.info` line, recorded as the trace of started steps), process it, and
wrap any error — `RestingError` or not, both `except` arms behave
identically — into `FailedStepError(step, number, total)`, aborting the
remaining steps. -/
def runSteps (exch : ExchangeFn) (total : Nat) :
    Nat → List Step → RunState → List Nat × Except RErr RunState
  | _, [], s => ([], .ok s)
  | num, st :: rest, s =>
    match Step.process exch st s with
    | .error e => ([num], .error (.failedStep st.label num total e))
    | .ok s2 =>
      let r := runSteps exch total (num + 1) rest s2
      (num :: r.1, r.2)

/-- Source `Script.process`: one converter bound to the run environment, steps
strictly sequential, fail-fast.  Completing every step returns the final
state (the explicit success outcome). -/
def Script.process (exch : ExchangeFn) (sc : Script) (h : History) :
    List Nat × Except RErr RunState :=
  runSteps exch sc.steps.length 1 sc.steps ⟨sc.environment, h, []⟩

mutual

/-- No string anywhere in the tree (keys included) contains a placeholder
occurrence, i.e. the scanner finds nothing to substitute. -/
def placeholderFree : JsonValue → Bool
  | .null => true
  | .bool _ => true
  | .num _ => true
  | .str s => (scanPl s.data).isEmpty
  | .arr xs => placeholderFreeList xs
  | .obj fs => placeholderFreeObj fs

def placeholderFreeList : JsonList → Bool
  | .nil => true
  | .cons v rest => placeholderFree v && placeholderFreeList rest

def placeholderFreeObj : JsonObj → Bool
  | .nil => true
  | .cons k v rest =>
    (scanPl k.data).isEmpty && placeholderFree v && placeholderFreeObj rest

end

/-- Keys of an association list are pairwise distinct (the invariant a real
Python dict guarantees). -/
def noDupKeys : JsonObj → Bool
  | .nil => true
  | .cons k _ rest => (dictGet rest k).isNone && noDupKeys rest

mutual

/-- Every object in the tree has pairwise-distinct keys. -/
def wfKeys : JsonValue → Bool
  | .null => true
  | .bool _ => true
  | .num _ => true
  | .str _ => true
  | .arr xs => wfKeysList xs
  | .obj fs => noDupKeys fs && wfKeysObj fs

def wfKeysList : JsonList → Bool
  | .nil => true
  | .cons v rest => wfKeys v && wfKeysList rest

def wfKeysObj : JsonObj → Bool
  | .nil => true
  | .cons _ v rest => wfKeys v && wfKeysObj rest

end

/-! Concrete fixtures used by the closed statements below. -/

def sampleEntry : HistoryEntry := ⟨200, "OK", [], [], .null⟩

def emptyState : RunState := ⟨.nil, History.empty, []⟩

/-- Environment `\x7b"a": \x7b"b": 7\x7d\x7d`. -/
def stateAB : RunState :=
  ⟨.cons "a" (.obj (.cons "b" (.num 7) .nil)) .nil, History.empty, []⟩

/-- One recorded exchange labelled `"r"` with status 200. -/
def hist200 : History := ⟨["r"], [("r", sampleEntry)]⟩

def state200 : RunState := ⟨.nil, hist200, []⟩

/-- Environment where the value of `a` is itself placeholder text:
`a ↦ "\x7benvironment.b\x7d"`, `b ↦ "x"`. -/
def chainState : RunState :=
  ⟨.cons "a" (.str "\x7benvironment.b\x7d") (.cons "b" (.str "x") .nil),
    History.empty, []⟩

/-! ### Helper lemmas -/

theorem String.mk_data (s : String) : String.mk s.data = s := rfl

theorem convertString_no_placeholder (s : RunState) (m : String)
    (h : scanPl m.data = []) : convertString s m = .ok m := by
  unfold convertString
  rw [h]
  rfl

theorem splitDotGo_no_dot (cs : List Char) :
    ∀ acc, '.' ∉ cs → splitDotGo cs acc = [String.mk (acc.reverse ++ cs)] := by
  induction cs with
  | nil => intro acc _; simp [splitDotGo]
  | cons c rest ih =>
    intro acc hm
    have hc : ¬(c = '.') := fun h => hm (h ▸ List.mem_cons_self c rest)
    have hrest : '.' ∉ rest := fun h => hm (List.mem_cons_of_mem c h)
    simp only [splitDotGo, if_neg hc]
    rw [ih (c :: acc) hrest]
    simp

theorem splitDot_environment (k : String) (h : '.' ∉ k.data) :
    splitDot ("environment." ++ k) = ["environment", k] := by
  have hdata : ("environment." ++ k).data = "environment.".data ++ k.data := rfl
  unfold splitDot
  rw [hdata]
  show splitDotGo
    ('e' :: 'n' :: 'v' :: 'i' :: 'r' :: 'o' :: 'n' :: 'm' :: 'e' :: 'n' :: 't' :: '.' :: k.data)
    [] = ["environment", k]
  simp only [splitDotGo, if_neg, if_pos, reduceIte]
  rw [splitDotGo_no_dot k.data [] h]
  simp [String.mk_data]

theorem dictGet_dictSet_self :
    ∀ (d : JsonObj) (k : String) (v : JsonValue),
      dictGet (dictSet d k v) k = some v
  | .nil, k, v => by simp [dictSet, dictGet]
  | .cons k0 v0 rest, k, v => by
    by_cases h : k0 = k
    · simp [dictSet, dictGet, h]
    · simp [dictSet, dictGet, h, dictGet_dictSet_self rest k v]

theorem dictGet_dictSet_ne :
    ∀ (d : JsonObj) (k k2 : String) (v : JsonValue), k2 ≠ k →
      dictGet (dictSet d k v) k2 = dictGet d k2
  | .nil, k, k2, v, h => by
    have hne : ¬(k = k2) := fun hh => h hh.symm
    simp [dictSet, dictGet, hne]
  | .cons k0 v0 rest, k, k2, v, h => by
    by_cases h0 : k0 = k
    · have hke : ¬(k = k2) := fun hh => h hh.symm
      simp [dictSet, dictGet, h0, hke]
    · by_cases h2 : k0 = k2
      · simp [dictSet, dictGet, h0, h2, h]
      · simp [dictSet, dictGet, h0, h2, dictGet_dictSet_ne rest k k2 v h]

theorem JsonObj.append_nil : ∀ (d : JsonObj), d.append .nil = d
  | .nil => rfl
  | .cons k v rest => by simp [JsonObj.append, JsonObj.append_nil rest]

theorem JsonObj.append_assoc :
    ∀ (a b c : JsonObj), (a.append b).append c = a.append (b.append c)
  | .nil, _, _ => rfl
  | .cons k v rest, b, c => by
    simp [JsonObj.append, JsonObj.append_assoc rest b c]

theorem dictGet_append_none :
    ∀ (a b : JsonObj) (k : String), dictGet a k = none →
      dictGet (a.append b) k = dictGet b k
  | .nil, b, k, _ => rfl
  | .cons k0 v0 rest, b, k, h => by
    by_cases h0 : k0 = k
    · simp [dictGet, h0] at h
    · simp only [dictGet, if_neg h0] at h
      simp [JsonObj.append, dictGet, h0, dictGet_append_none rest b k h]

theorem dictSet_fresh :
    ∀ (d : JsonObj) (k : String) (v : JsonValue), dictGet d k = none →
      dictSet d k v = d.append (.cons k v .nil)
  | .nil, k, v, _ => rfl
  | .cons k0 v0 rest, k, v, h => by
    by_cases h0 : k0 = k
    · simp [dictGet, h0] at h
    · simp only [dictGet, if_neg h0] at h
      simp [dictSet, JsonObj.append, h0, dictSet_fresh rest k v h]

theorem dictBuild_of_fresh :
    ∀ (fs acc : JsonObj), noDupKeys fs = true →
      (∀ k, (dictGet fs k).isSome → dictGet acc k = none) →
      dictBuild acc fs = acc.append fs
  | .nil, acc, _, _ => by simp [dictBuild, JsonObj.append_nil]
  | .cons k v rest, acc, hnd, hfresh => by
    simp only [noDupKeys, Bool.and_eq_true, Option.isNone_iff_eq_none] at hnd
    have hacck : dictGet acc k = none := by
      apply hfresh
      simp [dictGet]
    have hset : dictSet acc k v = acc.append (.cons k v .nil) :=
      dictSet_fresh acc k v hacck
    have hfresh2 : ∀ k2, (dictGet rest k2).isSome →
        dictGet (acc.append (.cons k v .nil)) k2 = none := by
      intro k2 hk2
      have hne : ¬(k = k2) := by
        intro hh
        subst hh
        rw [hnd.1] at hk2
        simp at hk2
      rw [dictGet_append_none acc _ k2]
      · simp [dictGet, hne]
      · apply hfresh
        simp only [dictGet, if_neg hne]
        exact hk2
    calc dictBuild acc (.cons k v rest)
        = dictBuild (dictSet acc k v) rest := rfl
      _ = dictBuild (acc.append (.cons k v .nil)) rest := by rw [hset]
      _ = (acc.append (.cons k v .nil)).append rest :=
          dictBuild_of_fresh rest _ hnd.2 hfresh2
      _ = acc.append (.cons k v rest) := by
          rw [JsonObj.append_assoc]
          rfl

theorem dictBuild_nil_of_noDup (fs : JsonObj) (h : noDupKeys fs = true) :
    dictBuild .nil fs = fs := by
  have := dictBuild_of_fresh fs .nil h (fun k _ => rfl)
  rw [this]
  rfl

theorem convertJsonList_forall2 (s : RunState) :
    ∀ (xs ys : JsonList), convertJsonList s xs = .ok ys →
      List.Forall₂ (fun a b => convert s a = .ok b) xs.toList ys.toList
  | .nil, ys, h => by
    simp only [convertJsonList] at h
    cases h
    exact List.Forall₂.nil
  | .cons v rest, ys, h => by
    simp only [convertJsonList] at h
    cases hv : convert s v with
    | error e => rw [hv] at h; cases h
    | ok v2 =>
      rw [hv] at h
      cases hr : convertJsonList s rest with
      | error e => rw [hr] at h; cases h
      | ok r2 =>
        rw [hr] at h
        cases h
        exact List.Forall₂.cons hv (convertJsonList_forall2 s rest r2 hr)

theorem convertJsonObj_forall2 (s : RunState) :
    ∀ (fs gs : JsonObj), convertJsonObj s fs = .ok gs →
      List.Forall₂
        (fun p q => convertString s p.1 = .ok q.1 ∧ convert s p.2 = .ok q.2)
        fs.toList gs.toList
  | .nil, gs, h => by
    simp only [convertJsonObj] at h
    cases h
    exact List.Forall₂.nil
  | .cons k v rest, gs, h => by
    simp only [convertJsonObj] at h
    cases hk : convertString s k with
    | error e => rw [hk] at h; cases h
    | ok k2 =>
      rw [hk] at h
      cases hv : convert s v with
      | error e => rw [hv] at h; cases h
      | ok v2 =>
        rw [hv] at h
        cases hr : convertJsonObj s rest with
        | error e => rw [hr] at h; cases h
        | ok r2 =>
          rw [hr] at h
          cases h
          exact List.Forall₂.cons ⟨hk, hv⟩ (convertJsonObj_forall2 s rest r2 hr)

theorem noDupKeys_dictSet :
    ∀ (d : JsonObj) (k : String) (v : JsonValue), noDupKeys d = true →
      noDupKeys (dictSet d k v) = true
  | .nil, k, v, _ => by simp [dictSet, noDupKeys, dictGet]
  | .cons k0 v0 rest, k, v, h => by
    simp only [noDupKeys, Bool.and_eq_true] at h
    by_cases h0 : k0 = k
    · simp only [dictSet, if_pos h0, noDupKeys, Bool.and_eq_true]
      exact h
    · simp only [dictSet, if_neg h0, noDupKeys, Bool.and_eq_true]
      constructor
      · rw [dictGet_dictSet_ne rest k k0 v h0]
        exact h.1
      · exact noDupKeys_dictSet rest k v h.2

theorem wfKeysObj_dictSet :
    ∀ (d : JsonObj) (k : String) (v : JsonValue),
      wfKeysObj d = true → wfKeys v = true → wfKeysObj (dictSet d k v) = true
  | .nil, k, v, _, hv => by simp [dictSet, wfKeysObj, hv]
  | .cons k0 v0 rest, k, v, h, hv => by
    simp only [wfKeysObj, Bool.and_eq_true] at h
    by_cases h0 : k0 = k
    · simp only [dictSet, if_pos h0, wfKeysObj, Bool.and_eq_true]
      exact ⟨hv, h.2⟩
    · simp only [dictSet, if_neg h0, wfKeysObj, Bool.and_eq_true]
      exact ⟨h.1, wfKeysObj_dictSet rest k v h.2 hv⟩

theorem dictBuild_wf :
    ∀ (ps acc : JsonObj),
      noDupKeys acc = true → wfKeysObj acc = true → wfKeysObj ps = true →
      noDupKeys (dictBuild acc ps) = true ∧ wfKeysObj (dictBuild acc ps) = true
  | .nil, acc, hnd, hwf, _ => ⟨hnd, hwf⟩
  | .cons k v rest, acc, hnd, hwf, hps => by
    simp only [wfKeysObj, Bool.and_eq_true] at hps
    exact dictBuild_wf rest (dictSet acc k v)
      (noDupKeys_dictSet acc k v hnd)
      (wfKeysObj_dictSet acc k v hwf hps.1)
      hps.2

mutual

theorem convert_wf (s : RunState) :
    ∀ (v w : JsonValue), convert s v = .ok w → wfKeys w = true
  | .null, w, h => by simp only [convert] at h; cases h; rfl
  | .bool b, w, h => by simp only [convert] at h; cases h; rfl
  | .num n, w, h => by simp only [convert] at h; cases h; rfl
  | .str t, w, h => by
    simp only [convert] at h
    cases ht : convertString s t with
    | error e => rw [ht] at h; cases h
    | ok r => rw [ht] at h; cases h; rfl
  | .arr xs, w, h => by
    simp only [convert] at h
    cases hx : convertJsonList s xs with
    | error e => rw [hx] at h; cases h
    | ok ys =>
      rw [hx] at h
      cases h
      exact convertList_wf s xs ys hx
  | .obj fs, w, h => by
    simp only [convert] at h
    cases hp : convertJsonObj s fs with
    | error e => rw [hp] at h; cases h
    | ok ps =>
      rw [hp] at h
      cases h
      have hwf := dictBuild_wf ps .nil rfl rfl (convertObj_wf s fs ps hp)
      simp only [wfKeys, Bool.and_eq_true]
      exact hwf

theorem convertList_wf (s : RunState) :
    ∀ (xs ys : JsonList), convertJsonList s xs = .ok ys → wfKeysList ys = true
  | .nil, ys, h => by simp only [convertJsonList] at h; cases h; rfl
  | .cons v rest, ys, h => by
    simp only [convertJsonList] at h
    cases hv : convert s v with
    | error e => rw [hv] at h; cases h
    | ok v2 =>
      rw [hv] at h
      cases hr : convertJsonList s rest with
      | error e => rw [hr] at h; cases h
      | ok r2 =>
        rw [hr] at h
        cases h
        simp only [wfKeysList, Bool.and_eq_true]
        exact ⟨convert_wf s v v2 hv, convertList_wf s rest r2 hr⟩

theorem convertObj_wf (s : RunState) :
    ∀ (fs ps : JsonObj), convertJsonObj s fs = .ok ps → wfKeysObj ps = true
  | .nil, ps, h => by simp only [convertJsonObj] at h; cases h; rfl
  | .cons k v rest, ps, h => by
    simp only [convertJsonObj] at h
    cases hk : convertString s k with
    | error e => rw [hk] at h; cases h
    | ok k2 =>
      rw [hk] at h
      cases hv : convert s v with
      | error e => rw [hv] at h; cases h
      | ok v2 =>
        rw [hv] at h
        cases hr : convertJsonObj s rest with
        | error e => rw [hr] at h; cases h
        | ok r2 =>
          rw [hr] at h
          cases h
          simp only [wfKeysObj, Bool.and_eq_true]
          exact ⟨convert_wf s v v2 hv, convertObj_wf s rest r2 hr⟩

end

mutual

theorem convert_idem (s : RunState) :
    ∀ (v : JsonValue), wfKeys v = true → placeholderFree v = true →
      convert s v = .ok v
  | .null, _, _ => rfl
  | .bool b, _, _ => rfl
  | .num n, _, _ => rfl
  | .str t, _, hp => by
    have hscan : scanPl t.data = [] := by
      cases hs : scanPl t.data with
      | nil => rfl
      | cons a l => simp [placeholderFree, hs] at hp
    simp only [convert, convertString_no_placeholder s t hscan]
  | .arr xs, hw, hp => by
    simp only [wfKeys] at hw
    simp only [placeholderFree] at hp
    simp only [convert, convertList_idem s xs hw hp]
  | .obj fs, hw, hp => by
    simp only [wfKeys, Bool.and_eq_true] at hw
    simp only [placeholderFree] at hp
    simp only [convert, convertObj_idem s fs hw.2 hp]
    rw [dictBuild_nil_of_noDup fs hw.1]

theorem convertList_idem (s : RunState) :
    ∀ (xs : JsonList), wfKeysList xs = true → placeholderFreeList xs = true →
      convertJsonList s xs = .ok xs
  | .nil, _, _ => rfl
  | .cons v rest, hw, hp => by
    simp only [wfKeysList, Bool.and_eq_true] at hw
    simp only [placeholderFreeList, Bool.and_eq_true] at hp
    simp only [convertJsonList, convert_idem s v hw.1 hp.1,
      convertList_idem s rest hw.2 hp.2]

theorem convertObj_idem (s : RunState) :
    ∀ (fs : JsonObj), wfKeysObj fs = true → placeholderFreeObj fs = true →
      convertJsonObj s fs = .ok fs
  | .nil, _, _ => rfl
  | .cons k v rest, hw, hp => by
    simp only [wfKeysObj, Bool.and_eq_true] at hw
    simp only [placeholderFreeObj, Bool.and_eq_true] at hp
    have hscan : scanPl k.data = [] := by
      cases hs : scanPl k.data with
      | nil => rfl
      | cons a l => simp [hs] at hp
    simp only [convertJsonObj, convertString_no_placeholder s k hscan,
      convert_idem s v hw.1 hp.1.2, convertObj_idem s rest hw.2 hp.2]

end

/-! ### Claim theorems -/

/-- C1 (counterexample): re-converting an already-converted value is NOT a
no-op in general.  With environment `a ↦ "\x7benvironment.b\x7d"`,
`b ↦ "x"`, converting `"\x7benvironment.a\x7d"` yields the placeholder text
`"\x7benvironment.b\x7d"`, and converting that again yields `"x"`, so
`convert (convert v)` differs structurally from `convert v`. -/
theorem convert_not_idempotent :
    convert chainState (.str "\x7benvironment.a\x7d") =
      .ok (.str "\x7benvironment.b\x7d")
    ∧ convert chainState (.str "\x7benvironment.b\x7d") = .ok (.str "x")
    ∧ JsonValue.str "x" ≠ JsonValue.str "\x7benvironment.b\x7d" := by
  refine ⟨by decide, by decide, by decide⟩

/-- C1 (amended): `convert` preserves container shape — a sequence converts
to the sequence of its independently converted items in order (hence of the
same length), and a map converts to the map rebuilt from its pairs with key
and value independently converted — and re-conversion is a no-op for every
conversion result that is placeholder-free (substituted values that
introduce new placeholder text, as in `convert_not_idempotent`, are the
only exception). -/
theorem convert_shape_preservation :
    (∀ (s : RunState) (xs : JsonList) (v : JsonValue),
      convert s (.arr xs) = .ok v →
        ∃ ys, v = .arr ys ∧
          List.Forall₂ (fun a b => convert s a = .ok b) xs.toList ys.toList)
    ∧ (∀ (s : RunState) (fs : JsonObj) (v : JsonValue),
      convert s (.obj fs) = .ok v →
        ∃ gs, v = .obj (dictBuild .nil gs) ∧
          List.Forall₂
            (fun p q => convertString s p.1 = .ok q.1 ∧ convert s p.2 = .ok q.2)
            fs.toList gs.toList)
    ∧ (∀ (s : RunState) (v w : JsonValue),
      convert s v = .ok w → placeholderFree w = true → convert s w = .ok w) := by
  refine ⟨?_, ?_, ?_⟩
  · intro s xs v h
    simp only [convert] at h
    cases hx : convertJsonList s xs with
    | error e => rw [hx] at h; cases h
    | ok ys =>
      rw [hx] at h
      cases h
      exact ⟨ys, rfl, convertJsonList_forall2 s xs ys hx⟩
  · intro s fs v h
    simp only [convert] at h
    cases hp : convertJsonObj s fs with
    | error e => rw [hp] at h; cases h
    | ok ps =>
      rw [hp] at h
      cases h
      exact ⟨ps, rfl, convertJsonObj_forall2 s fs ps hp⟩
  · intro s v w hc hp
    exact convert_idem s w (convert_wf s v w hc) hp

theorem convert_shape_preservation_witness :
    convert chainState (.str "x") = .ok (.str "x") :=
  convert_shape_preservation.2.2 chainState
    (.str "\x7benvironment.b\x7d") (.str "x") (by decide) (by decide)

/-- C3: the numeric-label rejection in `History.add` is ineffective — the
`ValueError` it raises is caught by the surrounding
`except ValueError: pass`, so the purely numeric label `"42"` is accepted
and registered, while the reserved label `"last"` is rejected as the claim
states. -/
theorem history_add_numeric_label_accepted :
    History.add History.empty "42" sampleEntry =
      .ok ⟨["42"], [("42", sampleEntry)]⟩
    ∧ History.add History.empty "last" sampleEntry =
      .error (.valueError "\x27last\x27 is reserved label") := by
  refine ⟨by decide, by decide⟩

/-- C7: label de-duplication.  Adding `"req"` to an empty history stores
`"req"`; adding `"req"` again stores `"req2"` (the branch where `"req2"`
is still free); a third add, with `"req2"` taken, stores `"req3"`.
Entries stay in registration order. -/
theorem history_label_dedup_req :
    History.add History.empty "req" sampleEntry =
      .ok ⟨["req"], [("req", sampleEntry)]⟩
    ∧ History.add ⟨["req"], [("req", sampleEntry)]⟩ "req" sampleEntry =
      .ok ⟨["req", "req2"], [("req", sampleEntry), ("req2", sampleEntry)]⟩
    ∧ History.add ⟨["req", "req2"],
        [("req", sampleEntry), ("req2", sampleEntry)]⟩ "req" sampleEntry =
      .ok ⟨["req", "req2", "req3"],
        [("req", sampleEntry), ("req2", sampleEntry), ("req3", sampleEntry)]⟩ := by
  refine ⟨by decide, by decide, by decide⟩

/-- C4 (counterexample): resolving `environment.a` against an empty
environment raises `InvalidPath` naming the offending segment `a` (the
`KeyError` path of `get_dict_value`), not the `EmptyEnvironment` variant;
and an empty rest does not fail at all — it returns the whole (empty)
environment map. -/
theorem substitute_no_empty_environment_error :
    substitute emptyState "environment.a" =
      .error (.invalidPath "environment.a" (some "a"))
    ∧ (Except.error RErr.emptyEnvironment : Except RErr JsonValue) ≠
      .error (.invalidPath "environment.a" (some "a"))
    ∧ substitute emptyState "environment" = .ok (.obj .nil) := by
  refine ⟨by decide, by decide, by decide⟩

/-- C4 (amended): `environment.a.b` against `\x7b"a": \x7b"b": 7\x7d\x7d`
resolves to `7`; a missing key — in particular every key lookup in an empty
environment — fails with `InvalidPath` carrying the full path and the
offending segment (`EmptyEnvironment` is declared in `script.py` but never
raised); an empty rest returns the environment map itself. -/
theorem substitute_environment_resolution :
    substitute stateAB "environment.a.b" = .ok (.num 7)
    ∧ substitute emptyState "environment" = .ok (.obj .nil)
    ∧ (∀ (s : RunState) (k : String),
        '.' ∉ k.data → pyIntOfString k = none → dictGet s.environment k = none →
        substitute s ("environment." ++ k) =
          .error (.invalidPath ("environment." ++ k) (some k))) := by
  refine ⟨by decide, by decide, ?_⟩
  intro s k hdot hint hget
  unfold substitute
  rw [splitDot_environment k hdot]
  simp [get_dict_value, get_item, hint, hget, RErr.lookupArg]

theorem substitute_environment_resolution_witness :
    substitute stateAB "environment.missing" =
      .error (.invalidPath "environment.missing" (some "missing")) :=
  substitute_environment_resolution.2.2 stateAB "missing"
    (by decide) (by decide) (by decide)

/-- C6: with an empty history the Status test does NOT fail with the
assertion message `"no last request found"`: evaluating
`session.history.last` raises `IndexError` from `self._labels[-1]` before
the assert can fire.  With a last status of 200 the expected value `"200"`
given as a string passes (string-to-int coercion), and `404` fails with a
message carrying both values. -/
theorem status_run_behavior :
    Status.run emptyState (.num 404) =
      .error (.indexError "list index out of range")
    ∧ RErr.indexError "list index out of range" ≠
      RErr.assertionError "no last request found"
    ∧ Status.run state200 (.str "200") = .ok state200
    ∧ Status.run state200 (.num 404) =
      .error (.assertionError "response status 200 but 404 expected") := by
  refine ⟨by decide, by decide, by decide, by decide⟩

theorem runSteps_spec (exch : ExchangeFn) (total : Nat) :
    ∀ (steps : List Step) (num : Nat) (s : RunState),
      (∃ s2, runSteps exch total num steps s =
        (List.range' num steps.length, .ok s2))
      ∨ ∃ k st e, steps.get? k = some st ∧ k < steps.length ∧
          runSteps exch total num steps s =
            (List.range' num (k + 1),
              .error (.failedStep st.label (num + k) total e))
  | [], num, s => Or.inl ⟨s, rfl⟩
  | st :: rest, num, s => by
    cases hp : Step.process exch st s with
    | error e =>
      right
      refine ⟨0, st, e, rfl, Nat.succ_pos _, ?_⟩
      simp [runSteps, hp, List.range']
    | ok s2 =>
      cases runSteps_spec exch total rest (num + 1) s2 with
      | inl h =>
        obtain ⟨s3, h3⟩ := h
        left
        refine ⟨s3, ?_⟩
        simp [runSteps, hp, h3, List.range']
      | inr h =>
        obtain ⟨k, st2, e, hget, hlt, hrun⟩ := h
        right
        refine ⟨k + 1, st2, e, by simpa using hget,
          by simp only [List.length_cons]; omega, ?_⟩
        have harith : num + 1 + k = num + (k + 1) := by omega
        simp [runSteps, hp, hrun, List.range', harith]

/-- C2: fail-fast orchestration.  For every collaborator behaviour, script
and initial history, `Script.process` either runs every step (the trace of
started steps is `1, ..., n`) and ends in the explicit success outcome, or
there is a step `i` whose processing failed, the result is a
`FailedStepError` carrying that step's label, its 1-based position `i` and
the total step count, and the trace shows that no step after `i` was
started. -/
theorem script_process_fail_fast :
    ∀ (exch : ExchangeFn) (sc : Script) (h : History),
      (∃ s2, Script.process exch sc h =
        (List.range' 1 sc.steps.length, .ok s2))
      ∨ ∃ i st e, 1 ≤ i ∧ i ≤ sc.steps.length ∧
          sc.steps.get? (i - 1) = some st ∧
          Script.process exch sc h =
            (List.range' 1 i,
              .error (.failedStep st.label i sc.steps.length e)) := by
  intro exch sc h
  cases runSteps_spec exch sc.steps.length sc.steps 1
      ⟨sc.environment, h, []⟩ with
  | inl hok =>
    obtain ⟨s2, h2⟩ := hok
    exact Or.inl ⟨s2, h2⟩
  | inr hfail =>
    obtain ⟨k, st, e, hget, hlt, hrun⟩ := hfail
    right
    refine ⟨k + 1, st, e, by omega, by omega, by simpa using hget, ?_⟩
    have harith : 1 + k = k + 1 := by omega
    rw [harith] at hrun
    exact hrun

/-- C5 (counterexample): a failing assertion inside a test is NOT reported
as a structured, tag-carrying test failure: on a step whose first test is
`status: 404` against a last status of 200, the loop stops with the raw
assertion error — which is not of the `TestError` shape that would carry
the variant tag — and the second test is never started. -/
theorem step_failure_untagged :
    runTests 1 [.status (.num 404), .print "x"] state200 =
      ([1], .error (.assertionError "response status 200 but 404 expected"))
    ∧ RErr.isTestError
        (.assertionError "response status 200 but 404 expected") = false := by
  refine ⟨by decide, by decide⟩

/-- C5 (amended): when the test at position `k` (here: after a successful
prefix `pre`, so `k = pre.length + 1`) fails, the raw error propagates
unwrapped — the `TestError` wrapper of `errors.py`, which would carry the
variant's tag name, is never raised anywhere in the engine — and no test
after position `k` is started: the trace is exactly `num, ..., num + k - 1`. -/
theorem run_tests_abort_on_failure :
    ∀ (pre : List Test) (num : Nat) (s s2 : RunState) (t : Test)
      (post : List Test) (e : RErr),
      runTests num pre s = (List.range' num pre.length, .ok s2) →
      Test.run s2 t = .error e →
      runTests num (pre ++ t :: post) s =
        (List.range' num (pre.length + 1), .error e)
  | [], num, s, s2, t, post, e, hpre, ht => by
    have hs : s = s2 := by
      have := congrArg Prod.snd hpre
      simpa [runTests] using this
    subst hs
    simp [runTests, ht, List.range']
  | p :: pre, num, s, s2, t, post, e, hpre, ht => by
    cases hq : Test.run s p with
    | error e2 =>
      exfalso
      have := congrArg Prod.snd hpre
      simp [runTests, hq] at this
    | ok s3 =>
      rcases hrr : runTests (num + 1) pre s3 with ⟨tr, res⟩
      have h1 : tr = List.range' (num + 1) pre.length := by
        have := congrArg Prod.fst hpre
        simpa [runTests, hq, hrr, List.range'] using this
      have h2 : res = .ok s2 := by
        have := congrArg Prod.snd hpre
        simpa [runTests, hq, hrr] using this
      have ih := run_tests_abort_on_failure pre (num + 1) s3 s2 t post e
        (by rw [hrr, h1, h2]) ht
      simp [runTests, hq, ih, List.range']

theorem run_tests_abort_on_failure_witness :
    runTests 1 ([.print "a"] ++ Test.status (.num 404) :: [.print "b"])
      state200 =
    (List.range' 1 2,
      .error (.assertionError "response status 200 but 404 expected")) :=
  run_tests_abort_on_failure [.print "a"] 1 state200
    ⟨.nil, hist200, ["a"]⟩ (.status (.num 404)) [.print "b"]
    (.assertionError "response status 200 but 404 expected")
    (by decide) (by decide)

/-- C8 (counterexample): a Print test CAN fail the step: its message is
converted first, and a message holding an unresolvable placeholder raises
the conversion error, which aborts the test loop. -/
theorem print_unresolvable_placeholder_fails :
    Test.run emptyState (.print "\x7bbogus\x7d") =
      .error (.invalidPath "bogus" none)
    ∧ runTests 1 [.print "\x7bbogus\x7d"] emptyState =
      ([1], .error (.invalidPath "bogus" none)) := by
  refine ⟨by decide, by decide⟩

/-- C8 (amended): whenever the conversion of its message succeeds, the
Print test emits the converted message as a diagnostic and has no other
effect: the environment and the history are untouched and the test
succeeds, so it never affects the run outcome. -/
theorem print_run_no_outcome_effect :
    ∀ (s : RunState) (msg out : String),
      convertString s msg = .ok out →
      Test.run s (.print msg) = .ok { s with output := s.output ++ [out] } := by
  intro s msg out h
  simp [Test.run, Print.run, h]

theorem print_run_no_outcome_effect_witness :
    Test.run state200 (.print "hello") =
      .ok { state200 with output := ["hello"] } := by
  have := print_run_no_outcome_effect state200 "hello" "hello" (by decide)
  simpa using this

/-- C9: UpdateEnvironment converts each key and value and assigns into the
shared environment in iteration order with last-write-wins, and the
mutation is visible to every later `environment.*` resolution.  The first
conjunct shows, for any run state and any plain key, that writing the same
key twice leaves the second value, both through a direct read and through a
subsequent converter resolution of `environment.<key>`; the second conjunct
shows on a concrete state that both the key and the value of a pair pass
through the converter before assignment. -/
theorem update_environment_visibility :
    (∀ (s : RunState) (k : String) (v1 v2 : Int),
      scanPl k.data = [] → pyIntOfString k = none → '.' ∉ k.data →
      UpdateEnvironment.run s (.cons k (.num v1) (.cons k (.num v2) .nil)) =
        .ok { s with environment := dictSet (dictSet s.environment k (.num v1)) k (.num v2) }
      ∧ dictGet (dictSet (dictSet s.environment k (.num v1)) k (.num v2)) k =
          some (.num v2)
      ∧ substitute
          { s with environment := dictSet (dictSet s.environment k (.num v1)) k (.num v2) }
          ("environment." ++ k) = .ok (.num v2))
    ∧ UpdateEnvironment.run ⟨.cons "src" (.num 5) .nil, History.empty, []⟩
        (.cons "key\x7benvironment.src\x7d"
          (.str "\x7benvironment.src\x7d") .nil) =
      .ok ⟨.cons "src" (.num 5) (.cons "key5" (.str "5") .nil),
        History.empty, []⟩ := by
  constructor
  · intro s k v1 v2 hscan hint hdot
    refine ⟨?_, dictGet_dictSet_self _ k _, ?_⟩
    · simp [UpdateEnvironment.run, convertString_no_placeholder _ k hscan,
        convert]
    · unfold substitute
      rw [splitDot_environment k hdot]
      simp [get_dict_value, get_item, hint, dictGet_dictSet_self,
        RErr.lookupArg]
  · decide

theorem update_environment_visibility_witness :
    UpdateEnvironment.run ⟨.cons "y" (.num 9) .nil, History.empty, []⟩
        (.cons "x" (.num 1) (.cons "x" (.num 2) .nil)) =
      .ok ⟨dictSet (dictSet (.cons "y" (.num 9) .nil) "x" (.num 1)) "x"
        (.num 2), History.empty, []⟩ :=
  (update_environment_visibility.1 ⟨.cons "y" (.num 9) .nil, History.empty, []⟩
    "x" 1 2 (by decide) (by decide) (by decide)).1

/-- C10: a History query whose first segment selects an existing entry but
whose tail matches none of the recognized shapes (`headers.<name>`,
`cookies.<name>`, `json.<rest>`, `status`, `reason`) falls off the match
statement and yields `None` — the undefined/null result — rather than
raising an error. -/
theorem history_unmatched_tail_null :
    ∀ (h : History) (key : String) (tail : List String) (e : HistoryEntry),
      History.getItem h key = .ok e → matchedTail tail = false →
      History.get_value_by_path h (key :: tail) = .ok .null := by
  intro h key tail e hget hmt
  simp only [History.get_value_by_path, hget]
  split
  · simp [matchedTail] at hmt
  · simp [matchedTail] at hmt
  · simp [matchedTail] at hmt
  · simp [matchedTail] at hmt
  · simp [matchedTail] at hmt
  · rfl

theorem history_unmatched_tail_null_witness :
    History.get_value_by_path hist200 ["r", "bogus"] = .ok .null :=
  history_unmatched_tail_null hist200 "r" ["bogus"] sampleEntry
    (by decide) (by decide)
